import Mathlib

/-!
Verification of the gesture recognition system's core pipeline:
the feature processor (`backend/app/services/feature_processor.py`) and the
gesture controller with its movement analyzer
(`backend/app/services/gesture_controller.py`).

Geometry (norms, arccos) is embedded over the real numbers; the controller
and movement analyzer, which use only field operations and comparisons, are
embedded over the rationals so that concrete runs are decidable.
Wall-clock time (`time.time()`) is passed explicitly as a parameter, and the
`datetime.now().isoformat()` timestamp of a history entry is modelled by the
same time value.
-/

namespace GestureSpec

/-- A 3-D landmark point, `{x, y, z}` in the source. -/
structure P3 where
  x : ℝ
  y : ℝ
  z : ℝ

noncomputable def P3.sub (a b : P3) : P3 := ⟨a.x - b.x, a.y - b.y, a.z - b.z⟩

noncomputable def P3.add (a b : P3) : P3 := ⟨a.x + b.x, a.y + b.y, a.z + b.z⟩

noncomputable def P3.smul (s : ℝ) (a : P3) : P3 := ⟨s * a.x, s * a.y, s * a.z⟩

/-- Componentwise division by a scalar (numpy `points / scale`). -/
noncomputable def P3.divs (a : P3) (m : ℝ) : P3 := ⟨a.x / m, a.y / m, a.z / m⟩

/-- Euclidean norm of a 3-vector, `np.linalg.norm`. -/
noncomputable def norm3 (a : P3) : ℝ := Real.sqrt (a.x ^ 2 + a.y ^ 2 + a.z ^ 2)

/-- Dot product, `np.dot`. -/
noncomputable def dot3 (a b : P3) : ℝ := a.x * b.x + a.y * b.y + a.z * b.z

/-- `FeatureProcessor.LANDMARK_NAMES`. -/
def LANDMARK_NAMES : List String :=
  ["WRIST", "THUMB_CMC", "THUMB_MCP", "THUMB_IP", "THUMB_TIP",
   "INDEX_FINGER_MCP", "INDEX_FINGER_PIP", "INDEX_FINGER_DIP", "INDEX_FINGER_TIP",
   "MIDDLE_FINGER_MCP", "MIDDLE_FINGER_PIP", "MIDDLE_FINGER_DIP", "MIDDLE_FINGER_TIP",
   "RING_FINGER_MCP", "RING_FINGER_PIP", "RING_FINGER_DIP", "RING_FINGER_TIP",
   "PINKY_MCP", "PINKY_PIP", "PINKY_DIP", "PINKY_TIP"]

/-- `FeatureProcessor.normalize_landmarks`: raises (`none`) unless exactly 21
landmarks; translates to the wrist (index 0) origin; divides by the maximum
distance from the wrist when that maximum is positive.  `np.max` over the 21
non-negative distances is modelled as `foldr max 0`. -/
noncomputable def normalize_landmarks (landmarks : List P3) : Option (List P3) :=
  if landmarks.length ≠ 21 then none
  else
    let wrist := landmarks.getD 0 ⟨0, 0, 0⟩
    let points_centered := landmarks.map (fun p => P3.sub p wrist)
    let max_distance := (points_centered.map norm3).foldr max 0
    some (if max_distance > 0
          then points_centered.map (fun p => p.divs max_distance)
          else points_centered)

/-- `FeatureProcessor.calculate_distances`: the insertion-ordered dict is
modelled as an association list.  Indexing a 21-point hand is total via
`getD`. -/
noncomputable def calculate_distances (landmarks : List P3) : List (String × ℝ) :=
  let g := fun i => landmarks.getD i ⟨0, 0, 0⟩
  let wrist := g 0
  let palm_center : P3 :=
    ⟨((g 0).x + (g 5).x + (g 9).x + (g 13).x + (g 17).x) / 5,
     ((g 0).y + (g 5).y + (g 9).y + (g 13).y + (g 17).y) / 5,
     ((g 0).z + (g 5).z + (g 9).z + (g 13).z + (g 17).z) / 5⟩
  [("thumb_tip_to_wrist", norm3 (P3.sub (g 4) wrist)),
   ("index_tip_to_wrist", norm3 (P3.sub (g 8) wrist)),
   ("middle_tip_to_wrist", norm3 (P3.sub (g 12) wrist)),
   ("ring_tip_to_wrist", norm3 (P3.sub (g 16) wrist)),
   ("pinky_tip_to_wrist", norm3 (P3.sub (g 20) wrist)),
   ("thumb_tip_to_palm", norm3 (P3.sub (g 4) palm_center)),
   ("index_tip_to_palm", norm3 (P3.sub (g 8) palm_center)),
   ("middle_tip_to_palm", norm3 (P3.sub (g 12) palm_center)),
   ("ring_tip_to_palm", norm3 (P3.sub (g 16) palm_center)),
   ("pinky_tip_to_palm", norm3 (P3.sub (g 20) palm_center)),
   ("thumb_to_index_tip", norm3 (P3.sub (g 8) (g 4))),
   ("index_to_middle_tip", norm3 (P3.sub (g 12) (g 8))),
   ("middle_to_ring_tip", norm3 (P3.sub (g 16) (g 12))),
   ("ring_to_pinky_tip", norm3 (P3.sub (g 20) (g 16)))]

/-- `FeatureProcessor._calculate_angle_vectors`: normalize with an `1e-10`
epsilon in each denominator, clamp the dot product to `[-1, 1]`
(`np.clip`), `arccos`, convert to degrees. -/
noncomputable def calculate_angle_vectors (v1 v2 : P3) : ℝ :=
  let v1_norm := v1.divs (norm3 v1 + 1e-10)
  let v2_norm := v2.divs (norm3 v2 + 1e-10)
  let dot_product := min (max (dot3 v1_norm v2_norm) (-1)) 1
  Real.arccos dot_product * 180 / Real.pi

/-- `FeatureProcessor._calculate_angle_3points`. -/
noncomputable def calculate_angle_3points (p1 p2 p3 : P3) : ℝ :=
  calculate_angle_vectors (P3.sub p1 p2) (P3.sub p3 p2)

/-- `FeatureProcessor.calculate_angles` as an association list in insertion
order. -/
noncomputable def calculate_angles (landmarks : List P3) : List (String × ℝ) :=
  let g := fun i => landmarks.getD i ⟨0, 0, 0⟩
  [("thumb_angle", calculate_angle_3points (g 2) (g 3) (g 4)),
   ("index_pip_angle", calculate_angle_3points (g 5) (g 6) (g 7)),
   ("middle_pip_angle", calculate_angle_3points (g 9) (g 10) (g 11)),
   ("ring_pip_angle", calculate_angle_3points (g 13) (g 14) (g 15)),
   ("pinky_pip_angle", calculate_angle_3points (g 17) (g 18) (g 19)),
   ("palm_orientation",
      calculate_angle_vectors (P3.sub (g 17) (g 2)) (P3.sub (g 0) (g 2)))]

/-- `FeatureProcessor.extract_features`: flattened normalized coordinates,
then the distance dict values, then the angle dict values. -/
noncomputable def extract_features (landmarks : List P3) : Option (List ℝ) :=
  (normalize_landmarks landmarks).map (fun nl =>
    (nl.flatMap (fun p => [p.x, p.y, p.z]))
      ++ (calculate_distances nl).map Prod.snd
      ++ (calculate_angles nl).map Prod.snd)

/-- `FeatureProcessor.get_feature_names`. -/
def get_feature_names : List String :=
  let finger_names := ["thumb", "index", "middle", "ring", "pinky"]
  (LANDMARK_NAMES.flatMap (fun n => [n ++ "_x", n ++ "_y", n ++ "_z"]))
    ++ finger_names.map (fun f => f ++ "_tip_to_wrist")
    ++ finger_names.map (fun f => f ++ "_tip_to_palm")
    ++ ["thumb_to_index_tip", "index_to_middle_tip",
        "middle_to_ring_tip", "ring_to_pinky_tip"]
    ++ ["thumb_angle", "index_pip_angle", "middle_pip_angle",
        "ring_pip_angle", "pinky_pip_angle", "palm_orientation"]

/-! ## Gesture controller (`gesture_controller.py`), over ℚ -/

/-- One history entry produced by `GestureController.log_action`. -/
structure HistEntry where
  id : ℕ
  timestamp : ℚ
  gesture : String
  confidence : ℚ
  mode : String
deriving DecidableEq

/-- `MovementAnalyzer` state: the `(x, y)` wrist-position buffer and the time
of the last detected dynamic gesture.  `buffer_size = 15`, `cooldown = 0.8`,
`swipe_threshold = 0.10` are inlined where used, as in the source. -/
structure MAState where
  position_buffer : List (ℚ × ℚ)
  last_dynamic_gesture_time : ℚ
deriving DecidableEq

/-- `MovementAnalyzer.add_position`: no-op on an empty/absent landmark list,
otherwise append the wrist (index 0) and evict the oldest entry if the
buffer exceeds 15. -/
def add_position (ma : MAState) (landmarks : List (ℚ × ℚ)) : MAState :=
  match landmarks with
  | [] => ma
  | wrist :: _ =>
    let buf := ma.position_buffer ++ [wrist]
    { ma with position_buffer := if buf.length > 15 then buf.tail else buf }

/-- `MovementAnalyzer.analyze_movement` with the current wall-clock time as
an explicit argument; returns the detected direction (if any) and the new
analyzer state. -/
def analyze_movement (ma : MAState) (now : ℚ) : Option String × MAState :=
  if now - ma.last_dynamic_gesture_time < 0.8 then (none, ma)
  else if ma.position_buffer.length < 5 then (none, ma)
  else
    let start_x := ((ma.position_buffer.take 3).map Prod.fst).sum / 3
    let start_y := ((ma.position_buffer.take 3).map Prod.snd).sum / 3
    let tail3 := ma.position_buffer.drop (ma.position_buffer.length - 3)
    let end_x := (tail3.map Prod.fst).sum / 3
    let end_y := (tail3.map Prod.snd).sum / 3
    let dx := end_x - start_x
    let dy := end_y - start_y
    if |dx| > 0.10 ∧ |dx| > |dy| * 1.5 then
      (some (if dx < 0 then "swipe_left" else "swipe_right"),
       { position_buffer := [], last_dynamic_gesture_time := now })
    else if |dy| > 0.10 ∧ |dy| > |dx| * 1.5 then
      (some (if dy < 0 then "swipe_up" else "swipe_down"),
       { position_buffer := [], last_dynamic_gesture_time := now })
    else (none, ma)

/-- `GestureController` state.  `hold_duration = 2.0` and `cooldown = 1.0`
are inlined where used. -/
structure CState where
  mode : String
  active_gesture : Option String
  gesture_start_time : ℚ
  last_action_time : ℚ
  history : List HistEntry
  ma : MAState
deriving DecidableEq

/-- The controller's `__init__` state. -/
def initState : CState :=
  { mode := "standard", active_gesture := none, gesture_start_time := 0,
    last_action_time := 0, history := [],
    ma := { position_buffer := [], last_dynamic_gesture_time := 0 } }

/-- `GestureController.reset_state`. -/
def reset_state (s : CState) : CState :=
  { s with active_gesture := none, gesture_start_time := 0,
           ma := { s.ma with position_buffer := [] } }

/-- `GestureController.set_mode`: returns the `True`/`False` result together
with the new state. -/
def set_mode (s : CState) (m : String) : Bool × CState :=
  if m = "standard" ∨ m = "safe" ∨ m = "all" then
    (true, reset_state { s with mode := m })
  else (false, s)

/-- `GestureController.log_action`: id is `len(history) + 1`, the entry is
inserted at the front, and the log is truncated to 100 entries. -/
def log_action (s : CState) (gesture_name : String) (confidence : ℚ) (now : ℚ) :
    CState :=
  let entry : HistEntry :=
    { id := s.history.length + 1, timestamp := now, gesture := gesture_name,
      confidence := confidence, mode := s.mode }
  { s with history := (entry :: s.history).take 100 }

/-- Result dict of `process_gesture`. -/
structure GResult where
  action_triggered : Bool
  progress : ℚ
  message : String
deriving DecidableEq

/-- The static-gesture half of `GestureController.process_gesture` (the code
after the dynamic-swipe block, which runs when no swipe was detected): the
confidence floor followed by the mode dispatch.  The source's sequence of
`if self.mode == ...:` blocks over a single mode string is an exclusive
dispatch. -/
def process_static (s1 : CState) (gesture_name : String) (confidence : ℚ)
    (now : ℚ) : GResult × CState :=
  let noRes : GResult := { action_triggered := false, progress := 0, message := "" }
  if confidence < 0.7 then (noRes, reset_state s1)
    else if s1.mode = "all" then
      if now - s1.last_action_time > 0.5 then
        ({ action_triggered := true, progress := 0,
           message := "Detected: " ++ gesture_name },
         { s1 with last_action_time := now })
      else (noRes, s1)
    else if s1.mode = "safe" then
      if s1.active_gesture ≠ some gesture_name then
        ({ action_triggered := false, progress := 0, message := "" },
         { s1 with active_gesture := some gesture_name,
                   gesture_start_time := now })
      else
        let elapsed := now - s1.gesture_start_time
        let progress := min (elapsed / 2) 1
        if progress ≥ 1 ∧ now - s1.last_action_time > 1 then
          ({ action_triggered := true, progress := progress,
             message := "ACTION EXECUTED: " ++ gesture_name },
           reset_state
             { (log_action s1 gesture_name confidence now) with
                 last_action_time := now })
        else ({ action_triggered := false, progress := progress, message := "" }, s1)
    else if s1.mode = "standard" then
      if now - s1.last_action_time > 1 then
        ({ action_triggered := true, progress := 0,
           message := "Quick Action: " ++ gesture_name },
         { (log_action s1 gesture_name confidence now) with
             last_action_time := now })
      else (noRes, s1)
    else (noRes, s1)

/-- `GestureController.process_gesture`.  A `None`/empty landmark list is
falsy in the source, so `landmarks` is a plain list and `[]` means both.
If a swipe is detected the call short-circuits with a dynamic trigger;
otherwise the static half (`process_static`) runs on the state whose
analyzer was fed this frame's position. -/
def process_gesture (s : CState) (gesture_name : String) (confidence : ℚ)
    (landmarks : List (ℚ × ℚ)) (now : ℚ) : GResult × CState :=
  if landmarks ≠ [] then
    let r := analyze_movement (add_position s.ma landmarks) now
    match r.1 with
    | some d =>
        ({ action_triggered := true, progress := 0,
           message := "DYNAMIC: " ++ d.toUpper },
         log_action { s with ma := r.2 } d 1 now)
    | none => process_static { s with ma := r.2 } gesture_name confidence now
  else process_static s gesture_name confidence now

/-- Run a sequence of landmark-free `process_gesture` calls at the given
times, collecting each call's `action_triggered` flag. -/
def run_gestures (s : CState) (gesture_name : String) (confidence : ℚ) :
    List ℚ → List Bool
  | [] => []
  | t :: ts =>
    let r := process_gesture s gesture_name confidence [] t
    r.1.action_triggered :: run_gestures r.2 gesture_name confidence ts

/-! ## Concrete sample states used by witnesses and counterexamples -/

/-- A controller put in `all` mode (timers at their initial values). -/
def allState : CState := { initState with mode := "all" }

/-- A controller in `safe` mode, mid-hold on "fist" since time 0, last
action long ago. -/
def safeHold : CState :=
  { initState with mode := "safe", active_gesture := some "fist",
                   gesture_start_time := 0, last_action_time := -5 }

/-- A controller in `standard` mode whose movement buffer holds one
position. -/
def bufState : CState :=
  { initState with
      ma := { position_buffer := [(1/2, 1/2)], last_dynamic_gesture_time := 0 } }

/-- An analyzer buffer of five positions with strictly increasing x and
fixed y. -/
def maRight : MAState :=
  { position_buffer := [(0, 0), (1/10, 0), (2/10, 0), (3/10, 0), (4/10, 0)],
    last_dynamic_gesture_time := 0 }

/-- A dummy history entry. -/
def histE : HistEntry :=
  { id := 0, timestamp := 0, gesture := "x", confidence := 1, mode := "standard" }

/-- A controller whose history log is full (100 entries). -/
def fullState : CState := { initState with history := List.replicate 100 histE }

/-- A degenerate but valid 21-landmark hand (all points coincident). -/
noncomputable def hand21 : List P3 := List.replicate 21 ⟨0, 0, 0⟩

/-! ## Theorems -/

/-- C9: for every pair of input vectors (zero-length vectors included), the
angle computation returns a value in [0, 180] degrees; the epsilon-guarded
denominators are strictly positive, so the computation is defined
everywhere. -/
theorem c9_angle_in_range (v1 v2 : P3) :
    0 < norm3 v1 + 1e-10 ∧ 0 < norm3 v2 + 1e-10 ∧
    0 ≤ calculate_angle_vectors v1 v2 ∧ calculate_angle_vectors v1 v2 ≤ 180 := by
  have hs1 := Real.sqrt_nonneg (v1.x ^ 2 + v1.y ^ 2 + v1.z ^ 2)
  have hs2 := Real.sqrt_nonneg (v2.x ^ 2 + v2.y ^ 2 + v2.z ^ 2)
  have heps : (0:ℝ) < 1e-10 := by norm_num
  refine ⟨by unfold norm3; linarith, by unfold norm3; linarith, ?_, ?_⟩
  · unfold calculate_angle_vectors
    have h := Real.arccos_nonneg
      (min (max (dot3 (v1.divs (norm3 v1 + 1e-10)) (v2.divs (norm3 v2 + 1e-10))) (-1)) 1)
    positivity
  · unfold calculate_angle_vectors
    have h := Real.arccos_le_pi
      (min (max (dot3 (v1.divs (norm3 v1 + 1e-10)) (v2.divs (norm3 v2 + 1e-10))) (-1)) 1)
    rw [div_le_iff₀ Real.pi_pos]
    nlinarith [Real.pi_pos]

/-- C8: `set_mode` with a string outside {standard, safe, all} signals
failure and leaves the whole controller state unchanged; with an accepted
mode it succeeds, sets the mode, fully resets the held-gesture state,
clears the movement buffer, and leaves the history log (and timers)
untouched. -/
theorem c8_set_mode (s : CState) (m : String) :
    (¬(m = "standard" ∨ m = "safe" ∨ m = "all") → set_mode s m = (false, s)) ∧
    ((m = "standard" ∨ m = "safe" ∨ m = "all") →
      set_mode s m =
        (true,
         { mode := m, active_gesture := none, gesture_start_time := 0,
           last_action_time := s.last_action_time, history := s.history,
           ma := { position_buffer := [],
                   last_dynamic_gesture_time := s.ma.last_dynamic_gesture_time } })) := by
  constructor
  · intro h
    simp only [set_mode, if_neg h]
  · intro h
    simp only [set_mode, if_pos h, reset_state]

/-- C8 witness: a rejected mode string leaves the initial state unchanged,
and an accepted one resets the held state. -/
theorem c8_set_mode_witness :
    set_mode initState "turbo" = (false, initState) ∧
    (set_mode initState "safe").1 = true :=
  ⟨(c8_set_mode initState "turbo").1 (by decide),
   by rw [(c8_set_mode initState "safe").2 (by simp)]⟩

/-- C10: a logged entry's id is the history length before insertion plus
one; the log is trimmed to 100 entries, so under the capacity invariant
ids never exceed 101, and once the log is full every further entry gets
id 101 — so ids repeat across the log's lifetime. -/
theorem c10_log_action_ids (s : CState) (g : String) (conf now : ℚ) :
    ((log_action s g conf now).history.head? =
      some { id := s.history.length + 1, timestamp := now, gesture := g,
             confidence := conf, mode := s.mode }) ∧
    (s.history.length ≤ 100 → (log_action s g conf now).history.length ≤ 100) ∧
    (s.history.length ≤ 100 →
      ∃ e, (log_action s g conf now).history.head? = some e ∧ e.id ≤ 101) ∧
    (s.history.length = 100 →
      (log_action s g conf now).history.length = 100 ∧
      (log_action s g conf now).history.head? =
        some { id := 101, timestamp := now, gesture := g,
               confidence := conf, mode := s.mode }) ∧
    (s.history.length = 100 →
      (log_action (log_action s g conf now) g conf now).history.head? =
        some { id := 101, timestamp := now, gesture := g,
               confidence := conf, mode := s.mode }) := by
  refine ⟨?_, ?_, ?_, ?_, ?_⟩
  · simp [log_action]
  · intro h
    simp only [log_action, List.length_take]
    omega
  · intro h
    refine ⟨{ id := s.history.length + 1, timestamp := now, gesture := g,
              confidence := conf, mode := s.mode }, by simp [log_action], ?_⟩
    show s.history.length + 1 ≤ 101
    omega
  · intro h
    constructor
    · simp only [log_action, List.length_take, List.length_cons, h]
      omega
    · simp [log_action, h]
  · intro h
    have hlen : (log_action s g conf now).history.length = 100 := by
      simp only [log_action, List.length_take, List.length_cons, h]
      omega
    have hhead : (log_action (log_action s g conf now) g conf now).history.head? =
        some { id := (log_action s g conf now).history.length + 1, timestamp := now,
               gesture := g, confidence := conf,
               mode := (log_action s g conf now).mode } := by
      simp [log_action]
    rw [hhead, hlen]
    rfl

/-- The movement analyzer past its guards, as a single conditional on the
smoothed displacement. -/
lemma analyze_core (ma : MAState) (now : ℚ) (dx dy : ℚ)
    (hc0 : ¬(now - ma.last_dynamic_gesture_time < 0.8))
    (hl0 : ¬(ma.position_buffer.length < 5))
    (hdx : dx = ((ma.position_buffer.drop (ma.position_buffer.length - 3)).map
                    Prod.fst).sum / 3
               - ((ma.position_buffer.take 3).map Prod.fst).sum / 3)
    (hdy : dy = ((ma.position_buffer.drop (ma.position_buffer.length - 3)).map
                    Prod.snd).sum / 3
               - ((ma.position_buffer.take 3).map Prod.snd).sum / 3) :
    analyze_movement ma now =
      if |dx| > 0.10 ∧ |dx| > |dy| * 1.5 then
        (some (if dx < 0 then "swipe_left" else "swipe_right"),
         { position_buffer := [], last_dynamic_gesture_time := now })
      else if |dy| > 0.10 ∧ |dy| > |dx| * 1.5 then
        (some (if dy < 0 then "swipe_up" else "swipe_down"),
         { position_buffer := [], last_dynamic_gesture_time := now })
      else (none, ma) := by
  subst hdx hdy
  unfold analyze_movement
  rw [if_neg hc0, if_neg hl0]


/-- C6: `analyze_movement` returns a swipe only with at least 5 buffered
positions and the 0.8s cooldown elapsed; with start/end the means of the
first and last 3 positions, a horizontal direction is returned exactly when
`|dx| > 0.10` and `|dx| > 1.5 * |dy|` (sign picks left/right), the vertical
case is symmetric, detection clears the buffer and resets the cooldown
timer, and in every other case it returns none; a second analysis within
the cooldown of a detection yields nothing. -/
theorem c6_analyze_movement (ma : MAState) (now : ℚ) :
    (ma.position_buffer.length < 5 → analyze_movement ma now = (none, ma)) ∧
    (now - ma.last_dynamic_gesture_time < 0.8 → analyze_movement ma now = (none, ma)) ∧
    (5 ≤ ma.position_buffer.length → 0.8 ≤ now - ma.last_dynamic_gesture_time →
      (let start_x := ((ma.position_buffer.take 3).map Prod.fst).sum / 3
       let start_y := ((ma.position_buffer.take 3).map Prod.snd).sum / 3
       let tail3 := ma.position_buffer.drop (ma.position_buffer.length - 3)
       let end_x := (tail3.map Prod.fst).sum / 3
       let end_y := (tail3.map Prod.snd).sum / 3
       let dx := end_x - start_x
       let dy := end_y - start_y
       ((analyze_movement ma now).1 = some "swipe_left" ↔
          |dx| > 0.10 ∧ |dx| > |dy| * 1.5 ∧ dx < 0) ∧
       ((analyze_movement ma now).1 = some "swipe_right" ↔
          |dx| > 0.10 ∧ |dx| > |dy| * 1.5 ∧ 0 < dx) ∧
       ((analyze_movement ma now).1 = some "swipe_up" ↔
          |dy| > 0.10 ∧ |dy| > |dx| * 1.5 ∧ dy < 0) ∧
       ((analyze_movement ma now).1 = some "swipe_down" ↔
          |dy| > 0.10 ∧ |dy| > |dx| * 1.5 ∧ 0 < dy) ∧
       ((analyze_movement ma now).1 = none ↔
          ¬(|dx| > 0.10 ∧ |dx| > |dy| * 1.5) ∧ ¬(|dy| > 0.10 ∧ |dy| > |dx| * 1.5)))) ∧
    (∀ d, (analyze_movement ma now).1 = some d →
       (analyze_movement ma now).2 =
         { position_buffer := [], last_dynamic_gesture_time := now }) ∧
    ((analyze_movement ma now).1 = none → (analyze_movement ma now).2 = ma) ∧
    (∀ d now2, (analyze_movement ma now).1 = some d → now2 - now < 0.8 →
       analyze_movement (analyze_movement ma now).2 now2 =
         (none, (analyze_movement ma now).2)) := by
  by_cases hc0 : now - ma.last_dynamic_gesture_time < 0.8
  · have heq : analyze_movement ma now = (none, ma) := by
      unfold analyze_movement
      rw [if_pos hc0]
    refine ⟨fun _ => heq, fun _ => heq, ?_, ?_, fun _ => by rw [heq], ?_⟩
    · intro h5 h8
      exact absurd h8 (not_le.mpr hc0)
    · intro d hd
      rw [heq] at hd
      exact absurd hd (by simp)
    · intro d now2 hd hcool
      rw [heq] at hd
      exact absurd hd (by simp)
  · by_cases hl0 : ma.position_buffer.length < 5
    · have heq : analyze_movement ma now = (none, ma) := by
        unfold analyze_movement
        rw [if_neg hc0, if_pos hl0]
      refine ⟨fun _ => heq, fun _ => heq, ?_, ?_, fun _ => by rw [heq], ?_⟩
      · intro h5 h8
        exact absurd h5 (not_le.mpr hl0)
      · intro d hd
        rw [heq] at hd
        exact absurd hd (by simp)
      · intro d now2 hd hcool
        rw [heq] at hd
        exact absurd hd (by simp)
    · have hstep := analyze_core ma now _ _ hc0 hl0 rfl rfl
      have hdet : ∀ d, (analyze_movement ma now).1 = some d →
          (analyze_movement ma now).2 =
            { position_buffer := [], last_dynamic_gesture_time := now } := by
        intro d hd
        rw [hstep] at hd ⊢
        split at hd
        next hH => rw [if_pos hH]
        next hH =>
          rw [if_neg hH]
          split at hd
          next hV => rw [if_pos hV]
          next hV =>
            rw [if_neg hV]
            exact absurd hd (by simp)
      refine ⟨?_, ?_, ?_, hdet, ?_, ?_⟩
      · intro h
        exact absurd h hl0
      · intro h
        exact absurd h hc0
      · intro h5 h8
        intro start_x start_y tail3 end_x end_y dx dy
        have hstep2 : analyze_movement ma now =
            (if |dx| > 0.10 ∧ |dx| > |dy| * 1.5 then
               (some (if dx < 0 then "swipe_left" else "swipe_right"),
                { position_buffer := [], last_dynamic_gesture_time := now })
             else if |dy| > 0.10 ∧ |dy| > |dx| * 1.5 then
               (some (if dy < 0 then "swipe_up" else "swipe_down"),
                { position_buffer := [], last_dynamic_gesture_time := now })
             else (none, ma)) := analyze_core ma now dx dy hc0 hl0 rfl rfl
        by_cases hH : |dx| > 0.10 ∧ |dx| > |dy| * 1.5
        · have hnV : ¬(|dy| > 0.10 ∧ |dy| > |dx| * 1.5) := by
            rintro ⟨hv1, hv2⟩
            have hady := abs_nonneg dy
            rcases hH with ⟨hh1, hh2⟩
            linarith
          by_cases hdx : dx < 0
          · have h1 : (analyze_movement ma now).1 = some "swipe_left" := by
              rw [hstep2, if_pos hH, if_pos hdx]
            refine ⟨⟨fun _ => ⟨hH.1, hH.2, hdx⟩, fun _ => h1⟩, ?_, ?_, ?_, ?_⟩
            · rw [h1]
              refine ⟨fun he => absurd he (by simp), ?_⟩
              rintro ⟨-, -, hdx2⟩
              linarith
            · rw [h1]
              refine ⟨fun he => absurd he (by simp), ?_⟩
              rintro ⟨hv1, hv2, -⟩
              exact absurd ⟨hv1, hv2⟩ hnV
            · rw [h1]
              refine ⟨fun he => absurd he (by simp), ?_⟩
              rintro ⟨hv1, hv2, -⟩
              exact absurd ⟨hv1, hv2⟩ hnV
            · rw [h1]
              refine ⟨fun he => absurd he (by simp), ?_⟩
              rintro ⟨hA, -⟩
              exact absurd hH hA
          · have hdx0 : 0 < dx := by
              have hne : dx ≠ 0 := abs_pos.mp (lt_trans (by norm_num) hH.1)
              exact lt_of_le_of_ne (not_lt.mp hdx) (Ne.symm hne)
            have h1 : (analyze_movement ma now).1 = some "swipe_right" := by
              rw [hstep2, if_pos hH, if_neg hdx]
            refine ⟨?_, ⟨fun _ => ⟨hH.1, hH.2, hdx0⟩, fun _ => h1⟩, ?_, ?_, ?_⟩
            · rw [h1]
              refine ⟨fun he => absurd he (by simp), ?_⟩
              rintro ⟨-, -, hdx2⟩
              linarith
            · rw [h1]
              refine ⟨fun he => absurd he (by simp), ?_⟩
              rintro ⟨hv1, hv2, -⟩
              exact absurd ⟨hv1, hv2⟩ hnV
            · rw [h1]
              refine ⟨fun he => absurd he (by simp), ?_⟩
              rintro ⟨hv1, hv2, -⟩
              exact absurd ⟨hv1, hv2⟩ hnV
            · rw [h1]
              refine ⟨fun he => absurd he (by simp), ?_⟩
              rintro ⟨hA, -⟩
              exact absurd hH hA
        · by_cases hV : |dy| > 0.10 ∧ |dy| > |dx| * 1.5
          · by_cases hdy : dy < 0
            · have h1 : (analyze_movement ma now).1 = some "swipe_up" := by
                rw [hstep2, if_neg hH, if_pos hV, if_pos hdy]
              refine ⟨?_, ?_, ⟨fun _ => ⟨hV.1, hV.2, hdy⟩, fun _ => h1⟩, ?_, ?_⟩
              · rw [h1]
                refine ⟨fun he => absurd he (by simp), ?_⟩
                rintro ⟨hh1, hh2, -⟩
                exact absurd ⟨hh1, hh2⟩ hH
              · rw [h1]
                refine ⟨fun he => absurd he (by simp), ?_⟩
                rintro ⟨hh1, hh2, -⟩
                exact absurd ⟨hh1, hh2⟩ hH
              · rw [h1]
                refine ⟨fun he => absurd he (by simp), ?_⟩
                rintro ⟨-, -, hdy2⟩
                linarith
              · rw [h1]
                refine ⟨fun he => absurd he (by simp), ?_⟩
                rintro ⟨-, hB⟩
                exact absurd hV hB
            · have hdy0 : 0 < dy := by
                have hne : dy ≠ 0 := abs_pos.mp (lt_trans (by norm_num) hV.1)
                exact lt_of_le_of_ne (not_lt.mp hdy) (Ne.symm hne)
              have h1 : (analyze_movement ma now).1 = some "swipe_down" := by
                rw [hstep2, if_neg hH, if_pos hV, if_neg hdy]
              refine ⟨?_, ?_, ?_, ⟨fun _ => ⟨hV.1, hV.2, hdy0⟩, fun _ => h1⟩, ?_⟩
              · rw [h1]
                refine ⟨fun he => absurd he (by simp), ?_⟩
                rintro ⟨hh1, hh2, -⟩
                exact absurd ⟨hh1, hh2⟩ hH
              · rw [h1]
                refine ⟨fun he => absurd he (by simp), ?_⟩
                rintro ⟨hh1, hh2, -⟩
                exact absurd ⟨hh1, hh2⟩ hH
              · rw [h1]
                refine ⟨fun he => absurd he (by simp), ?_⟩
                rintro ⟨-, -, hdy2⟩
                linarith
              · rw [h1]
                refine ⟨fun he => absurd he (by simp), ?_⟩
                rintro ⟨-, hB⟩
                exact absurd hV hB
          · have h1 : (analyze_movement ma now).1 = none := by
              rw [hstep2, if_neg hH, if_neg hV]
            refine ⟨?_, ?_, ?_, ?_, ⟨fun _ => ⟨hH, hV⟩, fun _ => h1⟩⟩
            · rw [h1]
              refine ⟨fun he => absurd he (by simp), ?_⟩
              rintro ⟨hh1, hh2, -⟩
              exact absurd ⟨hh1, hh2⟩ hH
            · rw [h1]
              refine ⟨fun he => absurd he (by simp), ?_⟩
              rintro ⟨hh1, hh2, -⟩
              exact absurd ⟨hh1, hh2⟩ hH
            · rw [h1]
              refine ⟨fun he => absurd he (by simp), ?_⟩
              rintro ⟨hh1, hh2, -⟩
              exact absurd ⟨hh1, hh2⟩ hV
            · rw [h1]
              refine ⟨fun he => absurd he (by simp), ?_⟩
              rintro ⟨hh1, hh2, -⟩
              exact absurd ⟨hh1, hh2⟩ hV
      · intro hd
        rw [hstep] at hd ⊢
        split at hd
        next hH =>
          exact absurd hd (by simp)
        next hH =>
          rw [if_neg hH]
          split at hd
          next hV =>
            exact absurd hd (by simp)
          next hV =>
            rw [if_neg hV]
      · intro d now2 hd hcool
        rw [hdet d hd]
        unfold analyze_movement
        rw [if_pos (by simpa using hcool)]

/-- C6 witness: an empty buffer never detects (via the theorem), and a
5-sample strictly-increasing-x buffer past the cooldown detects a right
swipe, clearing the buffer. -/
theorem c6_analyze_movement_witness :
    analyze_movement { position_buffer := [], last_dynamic_gesture_time := 0 } 1 =
      (none, { position_buffer := [], last_dynamic_gesture_time := 0 }) ∧
    analyze_movement maRight 1 =
      (some "swipe_right", { position_buffer := [], last_dynamic_gesture_time := 1 }) := by
  constructor
  · exact (c6_analyze_movement
      { position_buffer := [], last_dynamic_gesture_time := 0 } 1).1 (by simp)
  · norm_num [analyze_movement, maRight, abs_of_pos, abs_of_nonneg]

/-- A landmark-free call goes straight to the static half. -/
lemma pg_nil (s : CState) (g : String) (conf now : ℚ) :
    process_gesture s g conf [] now = process_static s g conf now := rfl

/-- Below the confidence floor, the static half resets and reports nothing. -/
lemma process_static_reject (s : CState) (g : String) (conf now : ℚ)
    (hconf : conf < 0.7) :
    process_static s g conf now =
      ({ action_triggered := false, progress := 0, message := "" },
       reset_state s) := by
  unfold process_static
  rw [if_pos hconf]

/-- The static half in `all` mode. -/
lemma process_static_all (s : CState) (g : String) (conf now : ℚ)
    (hmode : s.mode = "all") (hconf : ¬(conf < 0.7)) :
    process_static s g conf now =
      if now - s.last_action_time > 0.5 then
        ({ action_triggered := true, progress := 0, message := "Detected: " ++ g },
         { s with last_action_time := now })
      else ({ action_triggered := false, progress := 0, message := "" }, s) := by
  unfold process_static
  rw [if_neg hconf, if_pos hmode]

/-- The static half in `safe` mode. -/
lemma process_static_safe (s : CState) (g : String) (conf now : ℚ)
    (hmode : s.mode = "safe") (hconf : ¬(conf < 0.7)) :
    process_static s g conf now =
      if s.active_gesture ≠ some g then
        ({ action_triggered := false, progress := 0, message := "" },
         { s with active_gesture := some g, gesture_start_time := now })
      else if min ((now - s.gesture_start_time) / 2) 1 ≥ 1 ∧
              now - s.last_action_time > 1 then
        ({ action_triggered := true,
           progress := min ((now - s.gesture_start_time) / 2) 1,
           message := "ACTION EXECUTED: " ++ g },
         reset_state
           { (log_action s g conf now) with last_action_time := now })
      else
        ({ action_triggered := false,
           progress := min ((now - s.gesture_start_time) / 2) 1,
           message := "" }, s) := by
  unfold process_static
  rw [if_neg hconf, if_neg (show ¬(s.mode = "all") by rw [hmode]; decide),
      if_pos hmode]

/-- The static half in `standard` mode. -/
lemma process_static_standard (s : CState) (g : String) (conf now : ℚ)
    (hmode : s.mode = "standard") (hconf : ¬(conf < 0.7)) :
    process_static s g conf now =
      if now - s.last_action_time > 1 then
        ({ action_triggered := true, progress := 0,
           message := "Quick Action: " ++ g },
         { (log_action s g conf now) with last_action_time := now })
      else ({ action_triggered := false, progress := 0, message := "" }, s) := by
  unfold process_static
  rw [if_neg hconf, if_neg (show ¬(s.mode = "all") by rw [hmode]; decide),
      if_neg (show ¬(s.mode = "safe") by rw [hmode]; decide), if_pos hmode]

/-- In standard mode, a chain of calls each strictly more than 1.0s after
the previous action makes every call trigger. -/
lemma run_gestures_standard_chain (g : String) (conf : ℚ)
    (hconf : ¬(conf < 0.7)) :
    ∀ (ts : List ℚ) (s : CState), s.mode = "standard" →
      List.Chain (fun a b => 1 < b - a) s.last_action_time ts →
      run_gestures s g conf ts = List.replicate ts.length true := by
  intro ts
  induction ts with
  | nil => intro s _ _; rfl
  | cons t ts ih =>
    intro s hmode hchain
    rw [List.chain_cons] at hchain
    obtain ⟨hgap, hchain2⟩ := hchain
    have hstep : process_gesture s g conf [] t =
        ({ action_triggered := true, progress := 0,
           message := "Quick Action: " ++ g },
         { (log_action s g conf t) with last_action_time := t }) := by
      rw [pg_nil, process_static_standard s g conf t hmode hconf, if_pos hgap]
    show (process_gesture s g conf [] t).1.action_triggered ::
        run_gestures (process_gesture s g conf [] t).2 g conf ts =
      List.replicate (ts.length + 1) true
    rw [hstep, List.replicate_succ]
    exact congrArg (true :: ·) (ih _ hmode hchain2)

/-- C7 counterexample: two standard-mode calls spaced exactly 1.0s apart
(which is "at least 1.0s"): the first triggers, the second does not,
because the code requires strictly more than 1.0s since the last action. -/
theorem c7_cex :
    ((3:ℚ) - 2 ≥ 1) ∧
    (process_gesture initState "palm" (9/10) [] 2).1.action_triggered = true ∧
    (process_gesture (process_gesture initState "palm" (9/10) [] 2).2
        "palm" (9/10) [] 3).1.action_triggered = false := by
  have h1 : process_gesture initState "palm" (9/10) [] 2 =
      ({ action_triggered := true, progress := 0,
         message := "Quick Action: " ++ "palm" },
       { (log_action initState "palm" (9/10) 2) with last_action_time := 2 }) := by
    rw [pg_nil, process_static_standard initState "palm" (9/10) 2 rfl (by norm_num),
        if_pos (by norm_num [initState])]
  refine ⟨by norm_num, by rw [h1], ?_⟩
  rw [h1, pg_nil, process_static_standard _ "palm" (9/10) 3 rfl (by norm_num),
      if_neg (by norm_num [log_action, initState])]

/-- C7 (amended): in standard mode at confidence ≥ 0.7, a call triggers
exactly when strictly more than 1.0s has passed since `last_action_time`
(so calls spaced strictly more than 1.0s apart all trigger, per the chain
lemma baked into the third conjunct), a trigger moves `last_action_time`
to the call time, and a call at most 1.0s after a triggering call never
triggers — two triggers never occur within the 1.0s cooldown. -/
theorem c7_standard_mode (s : CState) (g : String) (conf : ℚ)
    (hmode : s.mode = "standard") (hconf : 0.7 ≤ conf) :
    (∀ now, ((process_gesture s g conf [] now).1.action_triggered = true ↔
        1 < now - s.last_action_time)) ∧
    (∀ now, 1 < now - s.last_action_time →
        (process_gesture s g conf [] now).2.last_action_time = now ∧
        (process_gesture s g conf [] now).2.mode = "standard") ∧
    (∀ ts, List.Chain (fun a b => 1 < b - a) s.last_action_time ts →
        run_gestures s g conf ts = List.replicate ts.length true) ∧
    (∀ t1 t2, t2 - t1 ≤ 1 →
        (process_gesture s g conf [] t1).1.action_triggered = true →
        (process_gesture (process_gesture s g conf [] t1).2 g conf [] t2).1.action_triggered
          = false) := by
  have hc : ¬(conf < 0.7) := not_lt.mpr hconf
  refine ⟨?_, ?_, ?_, ?_⟩
  · intro now
    rw [pg_nil, process_static_standard s g conf now hmode hc]
    by_cases h : now - s.last_action_time > 1
    · rw [if_pos h]
      simpa using h
    · rw [if_neg h]
      simpa using h
  · intro now h
    rw [pg_nil, process_static_standard s g conf now hmode hc, if_pos h]
    exact ⟨rfl, hmode⟩
  · intro ts hchain
    exact run_gestures_standard_chain g conf hc ts s hmode hchain
  · intro t1 t2 hle htrig
    by_cases h1 : t1 - s.last_action_time > 1
    · have hs1 : process_gesture s g conf [] t1 =
          ({ action_triggered := true, progress := 0,
             message := "Quick Action: " ++ g },
           { (log_action s g conf t1) with last_action_time := t1 }) := by
        rw [pg_nil, process_static_standard s g conf t1 hmode hc, if_pos h1]
      rw [hs1, pg_nil]
      show (process_static
          ({ (log_action s g conf t1) with last_action_time := t1 })
          g conf t2).1.action_triggered = false
      rw [process_static_standard
            ({ (log_action s g conf t1) with last_action_time := t1 })
            g conf t2 hmode hc,
          if_neg (show ¬((1:ℚ) < t2 - t1) from not_lt.mpr (by linarith))]
    · rw [pg_nil, process_static_standard s g conf t1 hmode hc, if_neg h1] at htrig
      exact absurd htrig (by simp)

/-- C7 witness: in the freshly initialized standard-mode controller, a call
at time 2 (strictly more than 1.0s after the initial last-action time 0)
triggers. -/
theorem c7_standard_mode_witness :
    (process_gesture initState "palm" (9/10) [] 2).1.action_triggered = true :=
  ((c7_standard_mode initState "palm" (9/10) rfl (by norm_num)).1 2).mpr
    (by norm_num [initState])

/-- C3: in safe mode at confidence ≥ 0.7 (no landmarks this frame): a call
whose label differs from the held gesture restarts the hold with progress 0
and no trigger; with the held label, the call triggers exactly when the
hold time has reached 2.0s and strictly more than the 1.0s cooldown has
passed since the last action, and then the held state is fully reset and
`last_action_time` moves to the call time; otherwise it reports progress
`min(elapsed/2, 1)` without triggering; and immediately after a trigger the
same label cannot trigger again without a fresh hold. -/
theorem c3_safe_mode (s : CState) (g : String) (conf now : ℚ)
    (hmode : s.mode = "safe") (hconf : 0.7 ≤ conf) :
    (s.active_gesture ≠ some g →
      process_gesture s g conf [] now =
        ({ action_triggered := false, progress := 0, message := "" },
         { s with active_gesture := some g, gesture_start_time := now })) ∧
    (s.active_gesture = some g → 2 ≤ now - s.gesture_start_time →
     1 < now - s.last_action_time →
      (process_gesture s g conf [] now).1.action_triggered = true ∧
      (process_gesture s g conf [] now).2.active_gesture = none ∧
      (process_gesture s g conf [] now).2.gesture_start_time = 0 ∧
      (process_gesture s g conf [] now).2.last_action_time = now) ∧
    (s.active_gesture = some g →
     (now - s.gesture_start_time < 2 ∨ now - s.last_action_time ≤ 1) →
      (process_gesture s g conf [] now).1.action_triggered = false ∧
      (process_gesture s g conf [] now).1.progress =
        min ((now - s.gesture_start_time) / 2) 1) ∧
    (s.active_gesture = some g → 2 ≤ now - s.gesture_start_time →
     1 < now - s.last_action_time →
      ∀ now2, (process_gesture (process_gesture s g conf [] now).2
                 g conf [] now2).1.action_triggered = false) := by
  have hc : ¬(conf < 0.7) := not_lt.mpr hconf
  have hmin : (1 ≤ min ((now - s.gesture_start_time) / 2) 1) ↔
      (2 ≤ now - s.gesture_start_time) := by
    rw [le_min_iff]
    constructor
    · rintro ⟨h, -⟩
      linarith
    · intro h
      exact ⟨by linarith, le_refl 1⟩
  refine ⟨?_, ?_, ?_, ?_⟩
  · intro hne
    rw [pg_nil, process_static_safe s g conf now hmode hc, if_pos hne]
  · intro hact h2 h3
    rw [pg_nil, process_static_safe s g conf now hmode hc,
        if_neg (fun hn => hn hact), if_pos ⟨hmin.mpr h2, h3⟩]
    exact ⟨rfl, rfl, rfl, rfl⟩
  · intro hact hor
    rw [pg_nil, process_static_safe s g conf now hmode hc,
        if_neg (fun hn => hn hact),
        if_neg (by
          rintro ⟨hm, hl⟩
          have := hmin.mp hm
          rcases hor with h | h <;> linarith)]
    exact ⟨rfl, rfl⟩
  · intro hact h2 h3 now2
    have hs1 : process_gesture s g conf [] now =
        ({ action_triggered := true,
           progress := min ((now - s.gesture_start_time) / 2) 1,
           message := "ACTION EXECUTED: " ++ g },
         reset_state
           { (log_action s g conf now) with last_action_time := now }) := by
      rw [pg_nil, process_static_safe s g conf now hmode hc,
          if_neg (fun hn => hn hact), if_pos ⟨hmin.mpr h2, h3⟩]
    rw [hs1, pg_nil]
    show (process_static
        (reset_state { (log_action s g conf now) with last_action_time := now })
        g conf now2).1.action_triggered = false
    rw [process_static_safe
          (reset_state { (log_action s g conf now) with last_action_time := now })
          g conf now2 hmode hc,
        if_pos (show (reset_state
            { (log_action s g conf now) with
                last_action_time := now }).active_gesture ≠ some g from
          fun h => Option.noConfusion h)]

/-- C3 witness: a controller mid-hold on "fist" since time 0 with the
cooldown long expired triggers at time 2 and fully resets its held state. -/
theorem c3_safe_mode_witness :
    (process_gesture safeHold "fist" (9/10) [] 2).1.action_triggered = true ∧
    (process_gesture safeHold "fist" (9/10) [] 2).2.active_gesture = none ∧
    (process_gesture safeHold "fist" (9/10) [] 2).2.gesture_start_time = 0 ∧
    (process_gesture safeHold "fist" (9/10) [] 2).2.last_action_time = 2 :=
  (c3_safe_mode safeHold "fist" (9/10) 2 rfl (by norm_num)).2.1 rfl
    (by norm_num [safeHold, initState]) (by norm_num [safeHold, initState])

/-- A call with landmarks whose analysis detects no swipe runs the static
half on the state with the analyzer fed. -/
lemma pg_cons (s : CState) (g : String) (conf : ℚ) (lm : List (ℚ × ℚ))
    (now : ℚ) (h : lm ≠ [])
    (hnone : (analyze_movement (add_position s.ma lm) now).1 = none) :
    process_gesture s g conf lm now =
      process_static
        { s with ma := (analyze_movement (add_position s.ma lm) now).2 }
        g conf now := by
  unfold process_gesture
  rw [if_pos h]
  simp only [hnone]

/-- A call with landmarks whose analysis detects a swipe short-circuits
with a dynamic trigger and logs it at confidence 1. -/
lemma pg_cons_some (s : CState) (g : String) (conf : ℚ) (lm : List (ℚ × ℚ))
    (now : ℚ) (d : String) (h : lm ≠ [])
    (hsome : (analyze_movement (add_position s.ma lm) now).1 = some d) :
    process_gesture s g conf lm now =
      ({ action_triggered := true, progress := 0,
         message := "DYNAMIC: " ++ d.toUpper },
       log_action
         { s with ma := (analyze_movement (add_position s.ma lm) now).2 }
         d 1 now) := by
  unfold process_gesture
  rw [if_pos h]
  simp only [hsome]

/-- C5 counterexample: a below-floor call on a controller with a non-empty
movement buffer clears that buffer (the claim says it is left unchanged). -/
theorem c5_cex :
    bufState.ma.position_buffer ≠ [] ∧
    (process_gesture bufState "fist" (1/2) [] 1).1.action_triggered = false ∧
    (process_gesture bufState "fist" (1/2) [] 1).2.ma.position_buffer = [] := by
  refine ⟨by simp [bufState, initState], ?_, ?_⟩ <;>
    · rw [pg_nil, process_static_reject bufState "fist" (1/2) 1 (by norm_num)]
      try rfl

/-- C5 (amended): a call with confidence < 0.7 (when no swipe was detected
this frame) returns a no-trigger result, clears the held label and hold
start time, and ALSO clears the movement analyzer's position buffer, while
leaving history, `last_action_time` and the mode untouched. -/
theorem c5_low_confidence (s : CState) (g : String) (conf : ℚ)
    (lm : List (ℚ × ℚ)) (now : ℚ) (hconf : conf < 0.7)
    (hnoswipe : lm = [] ∨
      (analyze_movement (add_position s.ma lm) now).1 = none) :
    (process_gesture s g conf lm now).1 =
      { action_triggered := false, progress := 0, message := "" } ∧
    (process_gesture s g conf lm now).2.active_gesture = none ∧
    (process_gesture s g conf lm now).2.gesture_start_time = 0 ∧
    (process_gesture s g conf lm now).2.ma.position_buffer = [] ∧
    (process_gesture s g conf lm now).2.history = s.history ∧
    (process_gesture s g conf lm now).2.last_action_time = s.last_action_time ∧
    (process_gesture s g conf lm now).2.mode = s.mode := by
  by_cases hlm : lm = []
  · subst hlm
    rw [pg_nil, process_static_reject s g conf now hconf]
    exact ⟨rfl, rfl, rfl, rfl, rfl, rfl, rfl⟩
  · have hnone : (analyze_movement (add_position s.ma lm) now).1 = none := by
      rcases hnoswipe with h | h
      · exact absurd h hlm
      · exact h
    rw [pg_cons s g conf lm now hlm hnone,
        process_static_reject _ g conf now hconf]
    exact ⟨rfl, rfl, rfl, rfl, rfl, rfl, rfl⟩

/-- C5 witness: the amended behaviour at a concrete below-floor call. -/
theorem c5_low_confidence_witness :
    (process_gesture bufState "fist" (1/2) [] 1).1 =
      { action_triggered := false, progress := 0, message := "" } ∧
    (process_gesture bufState "fist" (1/2) [] 1).2.active_gesture = none ∧
    (process_gesture bufState "fist" (1/2) [] 1).2.gesture_start_time = 0 ∧
    (process_gesture bufState "fist" (1/2) [] 1).2.ma.position_buffer = [] ∧
    (process_gesture bufState "fist" (1/2) [] 1).2.history = bufState.history ∧
    (process_gesture bufState "fist" (1/2) [] 1).2.last_action_time =
      bufState.last_action_time ∧
    (process_gesture bufState "fist" (1/2) [] 1).2.mode = bufState.mode :=
  c5_low_confidence bufState "fist" (1/2) [] 1 (by norm_num) (Or.inl rfl)

/-- Each outcome of the static half either leaves the history untouched
(and can only have triggered in `all` mode) or prepends one entry and
truncates to 100. -/
lemma static_history_cases (s1 : CState) (g : String) (conf now : ℚ) :
    ((process_static s1 g conf now).2.history = s1.history ∧
       ((process_static s1 g conf now).1.action_triggered = true →
          s1.mode = "all")) ∨
    (∃ e, (process_static s1 g conf now).2.history =
            (e :: s1.history).take 100 ∧
          (process_static s1 g conf now).1.action_triggered = true) := by
  unfold process_static
  dsimp only
  split_ifs <;>
    first
      | exact Or.inl ⟨rfl, fun hh => hh.elim⟩
      | (refine Or.inl ⟨rfl, fun _ => ?_⟩; assumption)
      | exact Or.inr ⟨_, rfl, rfl⟩

/-- C4 counterexample: a static trigger in `all` mode appends nothing to
the history log (the claim says every trigger appends one entry). -/
theorem c4_cex :
    (process_gesture allState "fist" (9/10) [] 1).1.action_triggered = true ∧
    (process_gesture allState "fist" (9/10) [] 1).2.history =
      allState.history := by
  rw [pg_nil, process_static_all allState "fist" (9/10) 1 rfl (by norm_num),
      if_pos (by norm_num [allState, initState])]
  exact ⟨rfl, rfl⟩

/-- C4 (amended): a triggering call appends exactly one entry at the head
of the log with the old log truncated to 99 — except a static trigger in
`all` mode, which appends nothing; non-triggering calls never touch the
log; and the log never grows beyond 100 entries. -/
theorem c4_history (s : CState) (g : String) (conf : ℚ)
    (lm : List (ℚ × ℚ)) (now : ℚ) :
    ((process_gesture s g conf lm now).1.action_triggered = true →
      (∃ e, (process_gesture s g conf lm now).2.history =
          (e :: s.history).take 100) ∨
      (s.mode = "all" ∧
        (process_gesture s g conf lm now).2.history = s.history)) ∧
    ((process_gesture s g conf lm now).1.action_triggered = false →
      (process_gesture s g conf lm now).2.history = s.history) ∧
    (s.history.length ≤ 100 →
      (process_gesture s g conf lm now).2.history.length ≤ 100) := by
  have hcases :
      ((process_gesture s g conf lm now).2.history = s.history ∧
         ((process_gesture s g conf lm now).1.action_triggered = true →
            s.mode = "all")) ∨
      (∃ e, (process_gesture s g conf lm now).2.history =
              (e :: s.history).take 100 ∧
            (process_gesture s g conf lm now).1.action_triggered = true) := by
    by_cases hlm : lm = []
    · subst hlm
      rw [pg_nil]
      exact static_history_cases s g conf now
    · rcases hsome : (analyze_movement (add_position s.ma lm) now).1 with _ | d
      · rw [pg_cons s g conf lm now hlm hsome]
        exact static_history_cases
          { s with ma := (analyze_movement (add_position s.ma lm) now).2 }
          g conf now
      · rw [pg_cons_some s g conf lm now d hlm hsome]
        exact Or.inr ⟨_, rfl, rfl⟩
  refine ⟨?_, ?_, ?_⟩
  · intro htrig
    rcases hcases with ⟨hunch, himp⟩ | ⟨e, he, -⟩
    · exact Or.inr ⟨himp htrig, hunch⟩
    · exact Or.inl ⟨e, he⟩
  · intro hfalse
    rcases hcases with ⟨hunch, -⟩ | ⟨e, he, htrig⟩
    · exact hunch
    · rw [htrig] at hfalse
      exact absurd hfalse (by simp)
  · intro hlen
    rcases hcases with ⟨hunch, -⟩ | ⟨e, he, -⟩
    · rw [hunch]
      exact hlen
    · rw [he, List.length_take]
      omega

/-- C4 witness: a concrete standard-mode trigger appends its entry at the
head of the (truncated) log. -/
theorem c4_history_witness :
    (process_gesture initState "palm" (9/10) [] 2).1.action_triggered = true ∧
    ((∃ e, (process_gesture initState "palm" (9/10) [] 2).2.history =
        (e :: initState.history).take 100) ∨
     (initState.mode = "all" ∧
        (process_gesture initState "palm" (9/10) [] 2).2.history =
          initState.history)) := by
  have htrig :
      (process_gesture initState "palm" (9/10) [] 2).1.action_triggered = true := by
    rw [pg_nil, process_static_standard initState "palm" (9/10) 2 rfl (by norm_num),
        if_pos (by norm_num [initState])]
  exact ⟨htrig, (c4_history initState "palm" (9/10) [] 2).1 htrig⟩

/-- Normalization preserves the number of landmarks. -/
lemma normalize_landmarks_length {lms nl : List P3}
    (h : normalize_landmarks lms = some nl) : nl.length = lms.length := by
  unfold normalize_landmarks at h
  split at h
  · exact absurd h (by simp)
  · have h2 := Option.some.inj h
    rw [← h2]
    split <;> simp

/-- Flattening 3-coordinate points triples the length. -/
lemma flatMap_coords_length (nl : List P3) :
    (nl.flatMap (fun p => [p.x, p.y, p.z])).length = 3 * nl.length := by
  induction nl with
  | nil => rfl
  | cons p l ih =>
    simp only [List.flatMap_cons, List.length_append, List.length_cons, ih]
    simp
    omega

/-- C1: for every valid 21-landmark hand, `extract_features` yields a
vector of the fixed length 83 = 63 coordinates + 14 distances + 6 angles,
`get_feature_names` has exactly 83 names, and the name list decomposes
into the per-landmark coordinate names followed by the distance-dict keys
followed by the angle-dict keys, in the same block order in which
`extract_features` concatenates the corresponding values. -/
theorem c1_feature_vector_names (lms : List P3) (h : lms.length = 21) :
    ∃ nl fv, normalize_landmarks lms = some nl ∧
      extract_features lms = some fv ∧
      fv.length = 83 ∧
      get_feature_names.length = 83 ∧
      fv = nl.flatMap (fun p => [p.x, p.y, p.z])
             ++ (calculate_distances nl).map Prod.snd
             ++ (calculate_angles nl).map Prod.snd ∧
      get_feature_names =
        LANDMARK_NAMES.flatMap (fun n => [n ++ "_x", n ++ "_y", n ++ "_z"])
          ++ (calculate_distances nl).map Prod.fst
          ++ (calculate_angles nl).map Prod.fst ∧
      LANDMARK_NAMES.length = 21 ∧ nl.length = 21 := by
  have hne : ¬(lms.length ≠ 21) := by simp [h]
  obtain ⟨nl, hnl⟩ : ∃ nl, normalize_landmarks lms = some nl := by
    unfold normalize_landmarks
    rw [if_neg hne]
    exact ⟨_, rfl⟩
  have hlen : nl.length = 21 := by rw [normalize_landmarks_length hnl, h]
  have hfv : extract_features lms =
      some (nl.flatMap (fun p => [p.x, p.y, p.z])
        ++ (calculate_distances nl).map Prod.snd
        ++ (calculate_angles nl).map Prod.snd) := by
    unfold extract_features
    rw [hnl]
    rfl
  have hdfst : (calculate_distances nl).map Prod.fst =
      ["thumb_tip_to_wrist", "index_tip_to_wrist", "middle_tip_to_wrist",
       "ring_tip_to_wrist", "pinky_tip_to_wrist", "thumb_tip_to_palm",
       "index_tip_to_palm", "middle_tip_to_palm", "ring_tip_to_palm",
       "pinky_tip_to_palm", "thumb_to_index_tip", "index_to_middle_tip",
       "middle_to_ring_tip", "ring_to_pinky_tip"] := rfl
  have hafst : (calculate_angles nl).map Prod.fst =
      ["thumb_angle", "index_pip_angle", "middle_pip_angle", "ring_pip_angle",
       "pinky_pip_angle", "palm_orientation"] := rfl
  refine ⟨nl, _, hnl, hfv, ?_, by decide, rfl, ?_, by decide, hlen⟩
  · simp only [List.length_append, flatMap_coords_length, hlen,
      calculate_distances, calculate_angles, List.length_map, List.length_cons]
    norm_num
  · rw [hdfst, hafst]
    decide

/-- C1 witness: the invariants at a concrete (degenerate but valid)
21-landmark hand. -/
theorem c1_feature_vector_names_witness :
    ∃ nl fv, normalize_landmarks hand21 = some nl ∧
      extract_features hand21 = some fv ∧
      fv.length = 83 ∧
      get_feature_names.length = 83 ∧
      fv = nl.flatMap (fun p => [p.x, p.y, p.z])
             ++ (calculate_distances nl).map Prod.snd
             ++ (calculate_angles nl).map Prod.snd ∧
      get_feature_names =
        LANDMARK_NAMES.flatMap (fun n => [n ++ "_x", n ++ "_y", n ++ "_z"])
          ++ (calculate_distances nl).map Prod.fst
          ++ (calculate_angles nl).map Prod.fst ∧
      LANDMARK_NAMES.length = 21 ∧ nl.length = 21 :=
  c1_feature_vector_names hand21 (by simp [hand21])

lemma norm3_nonneg (v : P3) : 0 ≤ norm3 v := Real.sqrt_nonneg _

/-- Scaling a vector by a non-negative scalar scales its norm. -/
lemma norm3_smul (s : ℝ) (hs : 0 ≤ s) (v : P3) :
    norm3 (P3.smul s v) = s * norm3 v := by
  unfold norm3 P3.smul
  dsimp only
  rw [show (s * v.x) ^ 2 + (s * v.y) ^ 2 + (s * v.z) ^ 2 =
        s ^ 2 * (v.x ^ 2 + v.y ^ 2 + v.z ^ 2) by ring,
      Real.sqrt_mul (sq_nonneg s), Real.sqrt_sq hs]

/-- A vector of norm 0 is the zero vector. -/
lemma norm3_eq_zero {v : P3} (h : norm3 v = 0) : v = ⟨0, 0, 0⟩ := by
  unfold norm3 at h
  have hsum : v.x ^ 2 + v.y ^ 2 + v.z ^ 2 ≤ 0 := Real.sqrt_eq_zero'.mp h
  have hx : v.x = 0 := by nlinarith [sq_nonneg v.x, sq_nonneg v.y, sq_nonneg v.z]
  have hy : v.y = 0 := by nlinarith [sq_nonneg v.x, sq_nonneg v.y, sq_nonneg v.z]
  have hz : v.z = 0 := by nlinarith [sq_nonneg v.x, sq_nonneg v.y, sq_nonneg v.z]
  cases v
  simp_all

lemma mul_max_distrib (s a b : ℝ) (hs : 0 ≤ s) :
    s * max a b = max (s * a) (s * b) := by
  rcases le_total a b with hab | hab
  · rw [max_eq_right hab, max_eq_right (mul_le_mul_of_nonneg_left hab hs)]
  · rw [max_eq_left hab, max_eq_left (mul_le_mul_of_nonneg_left hab hs)]

lemma foldr_max_smul (s : ℝ) (hs : 0 ≤ s) (l : List ℝ) :
    (l.map (fun x => s * x)).foldr max 0 = s * l.foldr max 0 := by
  induction l with
  | nil => simp
  | cons a l ih =>
    simp only [List.map_cons, List.foldr_cons, ih, mul_max_distrib _ _ _ hs]

lemma foldr_max_nonneg (l : List ℝ) : 0 ≤ l.foldr max 0 := by
  induction l with
  | nil => exact le_refl 0
  | cons a l ih => exact le_max_of_le_right ih

lemma mem_le_foldr_max {x : ℝ} {l : List ℝ} (h : x ∈ l) :
    x ≤ l.foldr max 0 := by
  induction l with
  | nil => cases h
  | cons a l ih =>
    rcases List.mem_cons.mp h with rfl | h2
    · exact le_max_left _ _
    · exact le_trans (ih h2) (le_max_right _ _)

/-- `normalize_landmarks` on a 21-point hand, written without `let`s. -/
lemma normalize_landmarks_eq (lms : List P3) (h : ¬(lms.length ≠ 21)) :
    normalize_landmarks lms =
      some
        (if ((lms.map (fun p =>
                P3.sub p (lms.getD 0 ⟨0, 0, 0⟩))).map norm3).foldr max 0 > 0
         then (lms.map (fun p => P3.sub p (lms.getD 0 ⟨0, 0, 0⟩))).map
                (fun p => p.divs
                  (((lms.map (fun p =>
                      P3.sub p (lms.getD 0 ⟨0, 0, 0⟩))).map norm3).foldr max 0))
         else lms.map (fun p => P3.sub p (lms.getD 0 ⟨0, 0, 0⟩))) := by
  unfold normalize_landmarks
  rw [if_neg h]

/-- The scale-division step is invariant under scaling all centered points
by a positive scalar. -/
lemma normalize_core (c : List P3) (s : ℝ) (hs : 0 < s) :
    (if ((c.map (P3.smul s)).map norm3).foldr max 0 > 0
     then (c.map (P3.smul s)).map
            (fun p => p.divs (((c.map (P3.smul s)).map norm3).foldr max 0))
     else c.map (P3.smul s)) =
    (if (c.map norm3).foldr max 0 > 0
     then c.map (fun p => p.divs ((c.map norm3).foldr max 0))
     else c) := by
  have hnorms : (c.map (P3.smul s)).map norm3 =
      (c.map norm3).map (fun x => s * x) := by
    rw [List.map_map, List.map_map]
    exact List.map_congr_left (fun v _ => norm3_smul s hs.le v)
  have hmax : ((c.map (P3.smul s)).map norm3).foldr max 0 =
      s * (c.map norm3).foldr max 0 := by
    rw [hnorms, foldr_max_smul s hs.le]
  by_cases hm : (c.map norm3).foldr max 0 > 0
  · rw [if_pos hm, if_pos (by rw [hmax]; exact mul_pos hs hm), hmax,
        List.map_map]
    refine List.map_congr_left (fun v _ => ?_)
    show (P3.smul s v).divs (s * (c.map norm3).foldr max 0) =
      v.divs ((c.map norm3).foldr max 0)
    unfold P3.smul P3.divs
    dsimp only
    rw [P3.mk.injEq]
    refine ⟨?_, ?_, ?_⟩ <;> exact mul_div_mul_left _ _ (ne_of_gt hs)
  · have hm0 : (c.map norm3).foldr max 0 = 0 :=
      le_antisymm (not_lt.mp hm) (foldr_max_nonneg _)
    rw [if_neg hm, if_neg (by rw [hmax, hm0, mul_zero]; exact lt_irrefl 0)]
    have hz : ∀ v ∈ c, P3.smul s v = v := by
      intro v hv
      have h1 : norm3 v = 0 := by
        have h2 : norm3 v ≤ (c.map norm3).foldr max 0 :=
          mem_le_foldr_max (List.mem_map_of_mem norm3 hv)
        rw [hm0] at h2
        exact le_antisymm h2 (norm3_nonneg v)
      rw [norm3_eq_zero h1]
      unfold P3.smul
      simp
    calc c.map (P3.smul s) = c.map id := List.map_congr_left hz
    _ = c := List.map_id c

/-- C2: translating and uniformly scaling all 21 landmarks by any positive
scalar and translation vector yields the same normalized output (exactly,
over real arithmetic), including the degenerate all-coincident case. -/
theorem c2_normalize_invariance (lms : List P3) (s : ℝ) (t : P3)
    (hs : 0 < s) (h : lms.length = 21) :
    normalize_landmarks (lms.map (fun p => P3.add (P3.smul s p) t)) =
      normalize_landmarks lms := by
  obtain ⟨a, rest, rfl⟩ : ∃ a rest, lms = a :: rest := by
    cases lms with
    | nil => simp at h
    | cons a rest => exact ⟨a, rest, rfl⟩
  rw [normalize_landmarks_eq _ (by rw [List.length_map, h]; exact fun hh => hh rfl),
      normalize_landmarks_eq _ (by rw [h]; exact fun hh => hh rfl)]
  have hcent : ((a :: rest).map (fun p => P3.add (P3.smul s p) t)).map
      (fun p => P3.sub p
        (((a :: rest).map (fun p => P3.add (P3.smul s p) t)).getD 0 ⟨0, 0, 0⟩)) =
      ((a :: rest).map (fun p => P3.sub p ((a :: rest).getD 0 ⟨0, 0, 0⟩))).map
        (P3.smul s) := by
    have hw' : ((a :: rest).map (fun p =>
        P3.add (P3.smul s p) t)).getD 0 ⟨0, 0, 0⟩ = P3.add (P3.smul s a) t := by
      simp
    have hw : (a :: rest).getD 0 ⟨0, 0, 0⟩ = a := by simp
    rw [hw', hw, List.map_map, List.map_map]
    refine List.map_congr_left (fun p _ => ?_)
    show P3.sub (P3.add (P3.smul s p) t) (P3.add (P3.smul s a) t) =
      P3.smul s (P3.sub p a)
    unfold P3.sub P3.add P3.smul
    dsimp only
    rw [P3.mk.injEq]
    refine ⟨by ring, by ring, by ring⟩
  rw [hcent]
  exact congrArg some (normalize_core _ s hs)

/-- C2 witness: invariance at a concrete hand, scale 2, translation
(1, 1, 1). -/
theorem c2_normalize_invariance_witness :
    normalize_landmarks (hand21.map (fun p =>
      P3.add (P3.smul 2 p) ⟨1, 1, 1⟩)) = normalize_landmarks hand21 :=
  c2_normalize_invariance hand21 2 ⟨1, 1, 1⟩ (by norm_num) (by simp [hand21])

/-- C10 witness: on a full (100-entry) log, the next entry gets id 101 and
the log stays at 100 entries. -/
theorem c10_log_action_ids_witness :
    (log_action fullState "fist" (9/10) 3).history.length = 100 ∧
    (log_action fullState "fist" (9/10) 3).history.head? =
      some { id := 101, timestamp := 3, gesture := "fist",
             confidence := 9/10, mode := "standard" } :=
  (c10_log_action_ids fullState "fist" (9/10) 3).2.2.2.1
    (by simp [fullState, initState])

end GestureSpec
